import Mathlib

/-!
# Verification of the nestjs-typeorm-validator query core

Shallow embedding of the repository's validation core:

* `src/utils/data-source.util.ts` — connection registry: name normalization,
  registration, lazy-initializing resolution (`getDataSourceForValidation`);
* `src/validators/base.validator.ts` — `BaseValidator.validateConstraints`,
  `BaseValidator.valueExists` (the tuple-returning, batch-aware version that the
  repository's own test suite exercises), `BaseValidator.getEntityName`, and the
  error-classification `catch` clause;
* `src/errors/*` — the typed error taxonomy (message templates embedded);
* the `ExistsIn` / `UniqueIn` validator `validate` methods.

JavaScript runtime values are modelled by `JSPrim`/`JSVal` (arrays of primitive
values; nested arrays do not occur in any validated scenario).  Asynchronous
store operations are modelled as oracles (`StoreModel`) giving the raw results
the code observes from the TypeORM query builder; thrown values are modelled by
`Thrown`.  Every definition is executable.
-/

namespace NestJsTypeormValidator

/-! ## JavaScript value model -/

/-- Primitive JavaScript values that can appear as validated values,
array elements, or non-`Error` throwables. -/
inductive JSPrim where
  | pNull
  | pUndefined
  | pBool (b : Bool)
  | pNum (n : Int)
  | pStr (s : String)
  deriving DecidableEq, Repr

/-- A JavaScript value as seen by the validators: a primitive or an array of
primitives (`Array.isArray` distinguishes the two). -/
inductive JSVal where
  | prim (p : JSPrim)
  | arr (elems : List JSPrim)
  deriving DecidableEq, Repr

/-- JavaScript `String(x)` on a primitive value. -/
def jsToString : JSPrim → String
  | .pNull => "null"
  | .pUndefined => "undefined"
  | .pBool true => "true"
  | .pBool false => "false"
  | .pNum n => toString n
  | .pStr s => s

/-- `value === null || value === undefined`. -/
def JSVal.isNullish : JSVal → Bool
  | .prim .pNull => true
  | .prim .pUndefined => true
  | _ => false

/-- Character-list trimming: drop leading and trailing whitespace.
Models JavaScript `String.prototype.trim` (over the whitespace characters
`Char.isWhitespace` recognises, which covers all whitespace appearing in this
development). -/
def trimCharList (l : List Char) : List Char :=
  ((l.dropWhile Char.isWhitespace).reverse.dropWhile Char.isWhitespace).reverse

/-- JavaScript `s.trim()`. -/
def jsTrim (s : String) : String :=
  String.mk (trimCharList s.data)

/-- JavaScript `Set` insertion: keep each value the first time it is seen.
`jsSetDedupAux seen l` processes `l` left to right, skipping values already
in `seen`. -/
def jsSetDedupAux (seen : List JSPrim) : List JSPrim → List JSPrim
  | [] => []
  | x :: xs =>
    if x ∈ seen then jsSetDedupAux seen xs
    else x :: jsSetDedupAux (x :: seen) xs

/-- First-occurrence-order deduplication: JavaScript `Array.from(new Set(xs))`. -/
def jsSetDedup (l : List JSPrim) : List JSPrim := jsSetDedupAux [] l

/-- Splitting a character list at every occurrence of a separator character:
the semantics of JavaScript `String.prototype.split` with a one-character
separator (no regex).  `[] ↦ [[]]`, mirroring `''.split(',') === ['']`. -/
def splitOnChar (sep : Char) : List Char → List (List Char)
  | [] => [[]]
  | c :: cs =>
    match splitOnChar sep cs with
    | [] => [[]]
    | h :: t => if c = sep then [] :: h :: t else (c :: h) :: t

/-- JavaScript `s.split(',')`. -/
def jsSplitComma (s : String) : List String :=
  (splitOnChar (Char.ofNat 44) s.data).map String.mk

/-- The apostrophe character, as a string. -/
def apos : String := String.mk [Char.ofNat 39]

/-- ASCII lower-casing of one character (sufficient for the all-ASCII
patterns the code matches case-insensitively). -/
def asciiLowerChar (c : Char) : Char :=
  if 65 ≤ c.toNat ∧ c.toNat ≤ 90 then Char.ofNat (c.toNat + 32) else c

/-- ASCII lower-casing of a string. -/
def toLowerAscii (s : String) : String :=
  String.mk (s.data.map asciiLowerChar)

/-- Substring containment (the semantics of a literal-only regular-expression
test such as `/no metadata/.test(msg)`). -/
def containsSub (haystack needle : String) : Bool :=
  (List.range (haystack.data.length + 1)).any
    (fun i => List.isPrefixOf needle.data (haystack.data.drop i))

/-- Case-insensitive substring containment: a literal regex with the `i` flag. -/
def strContainsCI (haystack needle : String) : Bool :=
  containsSub (toLowerAscii haystack) (toLowerAscii needle)

/-- Propositional "the string `haystack` contains `needle`". -/
def StrContains (haystack needle : String) : Prop :=
  needle.data <:+: haystack.data

/-! ## Error taxonomy (`src/errors`)

Each error class reduces, for the properties verified here, to its kind, its
`message`, and (for `ValidationQueryError`) its `cause`.  The `context` payload
objects (property name, constraints, attempted value, …) are diagnostic and are
not modelled. -/

/-- A plain JavaScript `Error`-shaped object: what `cause` always is. -/
structure JsErrorObj where
  message : String
  deriving DecidableEq, Repr

/-- The typed validator errors (`ValidatorError` subclasses). -/
inductive VError where
  | validationConfiguration (message : String)
  | dataSourceNotRegistered (message : String)
  | dataSourceInitialization (message : String)
  | dataSourceInvalid (message : String)
  | validationQuery (message : String) (cause : JsErrorObj)
  deriving DecidableEq, Repr

/-- `message` of a typed validator error. -/
def VError.message : VError → String
  | .validationConfiguration m => m
  | .dataSourceNotRegistered m => m
  | .dataSourceInitialization m => m
  | .dataSourceInvalid m => m
  | .validationQuery m _ => m

/-- Anything a JavaScript statement can throw, as the `catch` clause sees it:
one of the typed validator errors, some other `Error` instance, or a
non-`Error` throwable (a string, a number, …). -/
inductive Thrown where
  | typed (e : VError)
  | jsError (e : JsErrorObj)
  | nonError (v : JSPrim)
  deriving DecidableEq, Repr

/-- `error instanceof Error ? error.message : String(error)`. -/
def thrownMessage : Thrown → String
  | .typed e => e.message
  | .jsError e => e.message
  | .nonError v => jsToString v

/-- `error instanceof Error ? error : new Error(String(error))`. -/
def originalErrorOf : Thrown → JsErrorObj
  | .typed e => ⟨e.message⟩
  | .jsError e => e
  | .nonError v => ⟨jsToString v⟩

/-! ## Message templates (from the error-class constructors) -/

def DEFAULT_DATA_SOURCE_NAME : String := "default"

/-- `DataSourceNotRegisteredError`'s message. -/
def notRegisteredMessage (dataSourceName : String) : String :=
  "DataSource \"" ++ dataSourceName ++
    "\" is not registered. Please call registerDataSourceForValidation() first."

/-- `DataSourceInitializationError`'s message. -/
def notInitializedMessage (dataSourceName : String) : String :=
  "DataSource \"" ++ dataSourceName ++
    "\" is not initialized. Please ensure it" ++ apos ++ "s initialized before use."

/-- `DataSourceInvalidError`'s message. -/
def invalidDataSourceMessage : String := "Invalid DataSource instance provided"

/-- The `ValidationConfigurationError` message raised by the schema-mismatch
reclassification in `valueExists`'s catch clause. -/
def noMetadataMessage (entityName : String) : String :=
  "No metadata found for \"" ++ entityName ++
    "\". Ensure it exists and is properly registered in the data source."

/-- The `ValidationQueryError` message raised by `valueExists`'s catch clause. -/
def failedToValidateMessage (entityName columnName : String) : String :=
  "Failed to validate in " ++ entityName ++ "." ++ columnName

/-- The literal of the regex `/no metadata/i`. -/
def noMetadataPattern : String := "no metadata"

/-- The literal of the regex pattern testing for "doesn't exist". -/
def doesNotExistPattern : String := "doesn" ++ apos ++ "t exist"

/-- `/no metadata/i.test(errMsg) || /doesn't exist/i.test(errMsg)`. -/
def matchesConfigPattern (errMsg : String) : Bool :=
  strContainsCI errMsg noMetadataPattern || strContainsCI errMsg doesNotExistPattern

/-! ## Connection registry (`src/utils/data-source.util.ts`) -/

deriving instance DecidableEq for Except

/-- A registered connection handle (`DataSourceLike`), as the registry observes
it: an identity, the `isInitialized` flag, and the outcome of calling
`initialize()` — either a rejection (which propagates) or fulfilment leaving
the flag in some state (a handle whose `initialize` silently no-ops leaves it
`false`). -/
structure HandleState where
  hid : Nat
  isInitialized : Bool
  initResult : Except Thrown Bool
  deriving DecidableEq, Repr

/-- The registry `Map` from normalized names to handles. -/
abbrev Registry := String → Option HandleState

/-- The `dataSourceName` argument of `normalizeDataSourceName` /
`getDataSourceForValidation`: `null`, `undefined`, a string, or a value of any
other type (rejected by the `typeof` check). -/
inductive DataSourceNameArg where
  | jsNull
  | jsUndefined
  | name (s : String)
  | nonString
  deriving DecidableEq, Repr

/-- `normalizeDataSourceName` from `data-source.util.ts`: `null`/`undefined`
map to `'default'`; non-strings are invalid; otherwise trim, mapping an
empty-after-trim string to `'default'`. -/
def normalizeDataSourceName : DataSourceNameArg → Except VError String
  | .jsNull => .ok DEFAULT_DATA_SOURCE_NAME
  | .jsUndefined => .ok DEFAULT_DATA_SOURCE_NAME
  | .nonString => .error (.dataSourceInvalid invalidDataSourceMessage)
  | .name s =>
      let trimmed := jsTrim s
      if trimmed = "" then .ok DEFAULT_DATA_SOURCE_NAME else .ok trimmed

/-- `getDataSourceForValidation` from `data-source.util.ts`: normalize the
name, look the handle up (failing with `DataSourceNotRegisteredError`), lazily
`await initialize()` when the handle is not initialized (a rejection
propagates unchanged), and fail with `DataSourceInitializationError` when the
handle still reports not-initialized afterwards. -/
def getDataSourceForValidation (reg : Registry) (arg : DataSourceNameArg) :
    Except Thrown HandleState :=
  match normalizeDataSourceName arg with
  | .error e => .error (.typed e)
  | .ok normalizedName =>
    match reg normalizedName with
    | none => .error (.typed (.dataSourceNotRegistered (notRegisteredMessage normalizedName)))
    | some dataSource =>
      if dataSource.isInitialized then .ok dataSource
      else
        match dataSource.initResult with
        | .error e => .error e
        | .ok flagAfterInit =>
          if flagAfterInit then .ok { dataSource with isInitialized := true }
          else .error (.typed (.dataSourceInitialization (notInitializedMessage normalizedName)))

/-! ## Constraints tuple and `BaseValidator` helpers -/

/-- The `entityOrTableName` element of the constraints tuple: a table-name
string or an entity-class descriptor carrying the class's reflective `.name`
(absent or empty for anonymous classes).  A `null`/`undefined` target is
falsy, exactly like the (also falsy) empty table name, and both are rejected
by `validateConstraints`; the embedding represents that degenerate target as
`table ""` (both reach `getRepository` as the string `''` via the `?? ''`
fallback). -/
inductive EntityRef where
  | table (name : String)
  | entityClass (clsName : Option String)
  deriving DecidableEq, Repr

/-- JavaScript truthiness of the target (`!entityOrTableName`): an empty
string is falsy, every class object is truthy. -/
def entityTruthy : EntityRef → Bool
  | .table s => s ≠ ""
  | .entityClass _ => true

/-- `BaseValidator.getEntityName`: a string target is returned as-is; an
entity class yields `cls.name || 'entity'`. -/
def getEntityName : EntityRef → String
  | .table s => s
  | .entityClass (some n) => if n = "" then "entity" else n
  | .entityClass none => "entity"

/-- The immutable constraints tuple
`[entityOrTableName, columnName, dataSourceName?, each?]` captured at
decoration time.  `columnName`/`dataSourceName` use `none` for
`undefined`. -/
structure Constraints where
  entityOrTableName : EntityRef
  columnName : Option String
  dataSourceName : Option String
  each : Option Bool
  deriving DecidableEq, Repr

/-- JavaScript truthiness of `columnName`. -/
def columnTruthy : Option String → Bool
  | none => false
  | some s => s ≠ ""

/-- How `${columnName}` interpolates into a template string. -/
def columnNameInterp : Option String → String
  | none => "undefined"
  | some s => s

/-- `BaseValidator.validateConstraints`: a `ValidationConfigurationError`
when the target or the column name is falsy. -/
def validateConstraints (c : Constraints) (validatorName : String) : Except VError Unit :=
  if entityTruthy c.entityOrTableName && columnTruthy c.columnName then .ok ()
  else .error (.validationConfiguration
    (validatorName ++ ": entity/table name and column name are required"))

/-! ## Store model and the query paths of `BaseValidator.valueExists` -/

/-- The raw result of the batch `COUNT(DISTINCT …)` query
(`getRawOne<{ cnt: string | number }>()`): no row (`null`/`undefined`), a row
lacking the `cnt` field, or a row whose `cnt` coerces (via `Number(…)`) to an
integer. -/
inductive CountRaw where
  | noRow
  | rowWithoutCnt
  | rowCnt (n : Int)
  deriving DecidableEq, Repr

/-- `found`:
`(countResult && ('cnt' in countResult ? Number(countResult.cnt) : 0)) ?? 0`. -/
def jsFoundOfCountRaw : CountRaw → Int
  | .noRow => 0
  | .rowWithoutCnt => 0
  | .rowCnt n => n

/-- The behavior of the repository / query builder obtained from the resolved
data source (`dataSource.getRepository(…).createQueryBuilder(…)`), as the code
observes it: obtaining the accessor may throw; the scalar
`select('1').where(col = :value).take(1).getRawOne()` yields a row or
`null`/`undefined` (or throws); the batch
`select(COUNT(DISTINCT col)).where(col IN :...values).getRawOne()` yields a
`CountRaw` (or throws). -/
structure StoreModel where
  getRepositoryOutcome : Except Thrown Unit
  scalarQuery : JSPrim → Except Thrown (Option Unit)
  countQuery : List JSPrim → Except Thrown CountRaw

/-- The registry plus the store behavior in effect during one validation. -/
structure ValidationEnv where
  registry : Registry
  store : StoreModel

/-- The in-`valueExists` normalization of the `dataSourceName` constraint:
`dataSourceName && typeof dataSourceName === 'string' && dataSourceName.trim() !== ''
  ? dataSourceName.trim() : undefined`. -/
def normalizedConstraintDataSourceName (dataSourceName : Option String) : DataSourceNameArg :=
  match dataSourceName with
  | none => .jsUndefined
  | some s => if s ≠ "" ∧ jsTrim s ≠ "" then .name (jsTrim s) else .jsUndefined

/-- Message of the `TypeError` raised by `(queryValue as string).split(',')`
when the value has no `split` method.  (The exact wording is
engine-specific; what matters downstream is that it matches neither
error-reclassification pattern, which holds for every engine's wording of
this `TypeError`.) -/
def splitTypeErrorMessage : String := "queryValue.split is not a function"

/-- `value.split(',').map(v => v.trim()).filter(v => v !== '')`. -/
def batchCandidates (s : String) : List String :=
  ((jsSplitComma s).map jsTrim).filter (fun v => v ≠ "")

/-- The `each`-mode preprocessing step of `valueExists`: when `each === true`,
comma-split the value (throwing a `TypeError` when it is not a string);
otherwise pass the value through. -/
def applyEachSplit (each : Option Bool) (value : JSVal) : Except Thrown JSVal :=
  if each = some true then
    match value with
    | .prim (.pStr s) => .ok (.arr ((batchCandidates s).map JSPrim.pStr))
    | _ => .error (.jsError ⟨splitTypeErrorMessage⟩)
  else .ok value

/-- The two query paths of `valueExists`, branching on `Array.isArray`.
Returns the `[anyExists, allExists]` verdict (or the raw thrown value) paired
with the number of store queries issued. -/
def runQuery (store : StoreModel) (queryValue : JSVal) :
    Except Thrown (Bool × Bool) × Nat :=
  match queryValue with
  | .arr values =>
    if values.length = 0 then (.ok (false, false), 0)
    else
      let uniqueValues := jsSetDedup values
      match store.countQuery uniqueValues with
      | .error e => (.error e, 1)
      | .ok countResult =>
        let found := jsFoundOfCountRaw countResult
        (.ok (decide (found > 0), decide (found = (uniqueValues.length : Int))), 1)
  | .prim p =>
    match store.scalarQuery p with
    | .error e => (.error e, 1)
    | .ok result =>
      let rowFound := result.isSome
      (.ok (rowFound, rowFound), 1)

/-- The `catch` clause of `valueExists`: rethrow the typed validator errors
verbatim; reclassify schema-mismatch messages as
`ValidationConfigurationError`; wrap everything else (coercing non-`Error`
throwables) into a `ValidationQueryError` carrying the original error as its
cause. -/
def classifyError (c : Constraints) (e : Thrown) : VError :=
  match e with
  | .typed ve => ve
  | _ =>
    let errMsg := thrownMessage e
    if matchesConfigPattern errMsg then
      .validationConfiguration (noMetadataMessage (getEntityName c.entityOrTableName))
    else
      .validationQuery
        (failedToValidateMessage (getEntityName c.entityOrTableName)
          (columnNameInterp c.columnName))
        (originalErrorOf e)

/-- The `try` block of `BaseValidator.valueExists`: normalize the data source
name, resolve the data source, obtain the repository, apply the `each` split,
and run the appropriate query path. -/
def valueExistsTry (env : ValidationEnv) (value : JSVal) (c : Constraints) :
    Except Thrown (Bool × Bool) × Nat :=
  match getDataSourceForValidation env.registry
      (normalizedConstraintDataSourceName c.dataSourceName) with
  | .error e => (.error e, 0)
  | .ok _dataSource =>
    match env.store.getRepositoryOutcome with
    | .error e => (.error e, 0)
    | .ok _ =>
      match applyEachSplit c.each value with
      | .error e => (.error e, 0)
      | .ok queryValue => runQuery env.store queryValue

/-- `BaseValidator.valueExists`: the `try` block with its `catch` clause.
Yields the `[anyExists, allExists]` verdict or a typed validator error,
paired with the number of store queries issued. -/
def valueExists (env : ValidationEnv) (value : JSVal) (c : Constraints) :
    Except VError (Bool × Bool) × Nat :=
  match valueExistsTry env value c with
  | (.ok r, q) => (.ok r, q)
  | (.error e, q) => (.error (classifyError c e), q)

/-! ## The validators

The `null`/`undefined` short-circuits and the `validateConstraints` call are
embedded from the `validate` methods in the tree.  The final combination of
the `[anyExists, allExists]` verdict into the boolean result is modelled from
the spec (§4.3/§4.4): the validator snapshots in the tree still return the raw
`valueExists` result from before it became a pair (the `ExistsIn` snapshot
does not even typecheck against the pair-returning `valueExists`), while the
repository's validator tests pin the combination below. -/

namespace ExistsInValidator

/-- `ExistsInValidator.validate`.  `null`/`undefined` → `false`; then
constraint validation; then the verdict, which is combined as
modelled from the spec: in batch (`each`) mode the result is `allExists`,
otherwise the verdict's exists flag. -/
def validate (env : ValidationEnv) (value : JSVal) (c : Constraints) :
    Except VError Bool × Nat :=
  if value.isNullish then (.ok false, 0)
  else
    match validateConstraints c "ExistsIn" with
    | .error e => (.error e, 0)
    | .ok _ =>
      match valueExists env value c with
      | (.error e, q) => (.error e, q)
      | (.ok (anyExists, allExists), q) =>
        (.ok (if c.each = some true then allExists else anyExists), q)

end ExistsInValidator

namespace UniqueInValidator

/-- `UniqueInValidator.validate`.  `null`/`undefined` → `true`; then
constraint validation; then the logical negation of the existence flag,
modelled from the spec: `!exists` in singular mode and `!anyExists` in batch
mode — in singular mode the verdict's two flags coincide, so the result is
`!anyExists` in both modes. -/
def validate (env : ValidationEnv) (value : JSVal) (c : Constraints) :
    Except VError Bool × Nat :=
  if value.isNullish then (.ok true, 0)
  else
    match validateConstraints c "UniqueIn" with
    | .error e => (.error e, 0)
    | .ok _ =>
      match valueExists env value c with
      | (.error e, q) => (.error e, q)
      | (.ok (anyExists, _allExists), q) => (.ok (!anyExists), q)

end UniqueInValidator

/-! ## Helper lemmas -/

/-- A list does not start with an element satisfying `p`. -/
def notLeading (p : α → Bool) : List α → Prop
  | [] => True
  | x :: _ => p x = false

theorem notLeading_dropWhile (p : α → Bool) (l : List α) :
    notLeading p (l.dropWhile p) := by
  induction l with
  | nil => simp [List.dropWhile, notLeading]
  | cons a as ih =>
    rw [List.dropWhile_cons]
    by_cases h : p a
    · simpa [h] using ih
    · simp only [h, if_false]
      simpa [notLeading] using h

theorem dropWhile_of_notLeading {p : α → Bool} {l : List α} (h : notLeading p l) :
    l.dropWhile p = l := by
  cases l with
  | nil => rfl
  | cons a as =>
    simp only [notLeading] at h
    simp [List.dropWhile_cons, h]

theorem notLeading_of_isPrefix {p : α → Bool} {l l' : List α}
    (hp : l' <+: l) (h : notLeading p l) : notLeading p l' := by
  cases l' with
  | nil => trivial
  | cons a as =>
    obtain ⟨t, ht⟩ := hp
    rw [← ht] at h
    simpa [notLeading] using h

theorem trimCharList_idem (l : List Char) :
    trimCharList (trimCharList l) = trimCharList l := by
  have h1 : notLeading Char.isWhitespace
      ((l.dropWhile Char.isWhitespace).reverse.dropWhile Char.isWhitespace) :=
    notLeading_dropWhile _ _
  have hpre : ((l.dropWhile Char.isWhitespace).reverse.dropWhile Char.isWhitespace).reverse
      <+: (l.dropWhile Char.isWhitespace) := by
    have hsuf := List.dropWhile_suffix (l := (l.dropWhile Char.isWhitespace).reverse)
      Char.isWhitespace
    rw [← List.reverse_reverse
      ((l.dropWhile Char.isWhitespace).reverse.dropWhile Char.isWhitespace)] at hsuf
    exact List.reverse_suffix.mp hsuf
  have h2 : notLeading Char.isWhitespace (trimCharList l) :=
    notLeading_of_isPrefix hpre (notLeading_dropWhile _ _)
  have h3 : notLeading Char.isWhitespace (trimCharList l).reverse := by
    rw [trimCharList, List.reverse_reverse]
    exact h1
  show (((trimCharList l).dropWhile _).reverse.dropWhile _).reverse = trimCharList l
  rw [dropWhile_of_notLeading h2, dropWhile_of_notLeading h3, List.reverse_reverse]

theorem jsTrim_idem (s : String) : jsTrim (jsTrim s) = jsTrim s :=
  congrArg String.mk (trimCharList_idem s.data)

theorem jsSetDedupAux_mem (l : List JSPrim) :
    ∀ (seen : List JSPrim) (a : JSPrim),
      a ∈ jsSetDedupAux seen l ↔ a ∈ l ∧ a ∉ seen := by
  induction l with
  | nil => simp [jsSetDedupAux]
  | cons x xs ih =>
    intro seen a
    rw [jsSetDedupAux]
    by_cases hx : x ∈ seen
    · rw [if_pos hx, ih]
      by_cases hax : a = x
      · subst hax
        simp [hx]
      · simp [hax]
    · rw [if_neg hx]
      by_cases hax : a = x
      · subst hax
        simp [hx]
      · simp [List.mem_cons, ih, hax]

theorem jsSetDedup_mem (l : List JSPrim) (a : JSPrim) :
    a ∈ jsSetDedup l ↔ a ∈ l := by
  rw [jsSetDedup, jsSetDedupAux_mem]
  simp

theorem jsSetDedupAux_nodup (l : List JSPrim) :
    ∀ seen : List JSPrim, (jsSetDedupAux seen l).Nodup := by
  induction l with
  | nil => simp [jsSetDedupAux]
  | cons x xs ih =>
    intro seen
    rw [jsSetDedupAux]
    by_cases hx : x ∈ seen
    · rw [if_pos hx]
      exact ih seen
    · rw [if_neg hx]
      refine List.nodup_cons.mpr ⟨?_, ih (x :: seen)⟩
      intro hmem
      exact ((jsSetDedupAux_mem xs (x :: seen) x).mp hmem).2 (List.mem_cons_self x seen)

theorem jsSetDedup_nodup (l : List JSPrim) : (jsSetDedup l).Nodup :=
  jsSetDedupAux_nodup l []

/-- A string contains its middle concatenation component. -/
theorem strContains_sandwich (pre mid suf : String) :
    StrContains (pre ++ mid ++ suf) mid :=
  ⟨pre.data, suf.data, by simp [String.data_append]⟩

/-! ## C8 — name normalization and resolution equivalence -/

/-- The claim's "default-mapping" of a trimmed name: empty maps to
`'default'`. -/
def defaultMap (t : String) : String :=
  if t = "" then DEFAULT_DATA_SOURCE_NAME else t

theorem normalize_defaultMap_trim (n : String) :
    normalizeDataSourceName (.name (defaultMap (jsTrim n)))
      = normalizeDataSourceName (.name n) := by
  by_cases h : jsTrim n = ""
  · rw [defaultMap, if_pos h]
    have hr : normalizeDataSourceName (.name n) = .ok DEFAULT_DATA_SOURCE_NAME := by
      simp [normalizeDataSourceName, h]
    rw [hr]
    decide
  · simp [normalizeDataSourceName, defaultMap, h, jsTrim_idem]

theorem getDataSource_congr (reg : Registry) {a b : DataSourceNameArg}
    (h : normalizeDataSourceName a = normalizeDataSourceName b) :
    getDataSourceForValidation reg a = getDataSourceForValidation reg b := by
  unfold getDataSourceForValidation
  rw [h]

/-- C8: for every registry and name `n2`, resolving the default-mapped trim of
`n2` and resolving `n2` give identical results (in particular, the same handle
when one is registered); and resolving `""`, `null`, and `undefined` is
equivalent to resolving `"default"`. -/
theorem getDataSource_name_normalization (reg : Registry) (n2 : String) :
    getDataSourceForValidation reg (.name (defaultMap (jsTrim n2)))
        = getDataSourceForValidation reg (.name n2)
    ∧ getDataSourceForValidation reg (.name "")
        = getDataSourceForValidation reg (.name "default")
    ∧ getDataSourceForValidation reg .jsNull
        = getDataSourceForValidation reg (.name "default")
    ∧ getDataSourceForValidation reg .jsUndefined
        = getDataSourceForValidation reg (.name "default") := by
  refine ⟨getDataSource_congr reg (normalize_defaultMap_trim n2),
    getDataSource_congr reg (by decide),
    getDataSource_congr reg (by decide),
    getDataSource_congr reg (by decide)⟩

/-! ## C7 — resolution failure modes -/

/-- C7: resolving a name with no registered handle fails with a
`DataSourceNotRegisteredError` whose message contains the resolved name; a
handle whose `initialize()` resolves but leaves it uninitialized produces a
`DataSourceInitializationError` naming the connection; and a rejection from
`initialize()` propagates unchanged. -/
theorem getDataSource_error_paths (reg : Registry) (arg : DataSourceNameArg)
    (nm : String) (ds : HandleState)
    (hnorm : normalizeDataSourceName arg = .ok nm) :
    (reg nm = none →
      getDataSourceForValidation reg arg
          = .error (.typed (.dataSourceNotRegistered (notRegisteredMessage nm)))
        ∧ StrContains (notRegisteredMessage nm) nm)
    ∧ (reg nm = some ds → ds.isInitialized = false → ds.initResult = .ok false →
      getDataSourceForValidation reg arg
          = .error (.typed (.dataSourceInitialization (notInitializedMessage nm)))
        ∧ StrContains (notInitializedMessage nm) nm)
    ∧ (∀ e, reg nm = some ds → ds.isInitialized = false → ds.initResult = .error e →
      getDataSourceForValidation reg arg = .error e) := by
  refine ⟨fun hreg => ⟨?_, ?_⟩, fun hreg hinit hres => ⟨?_, ?_⟩, fun e hreg hinit hres => ?_⟩
  · simp [getDataSourceForValidation, hnorm, hreg]
  · exact strContains_sandwich "DataSource \"" nm
      "\" is not registered. Please call registerDataSourceForValidation() first."
  · simp [getDataSourceForValidation, hnorm, hreg, hinit, hres]
  · exact ⟨("DataSource \"").data,
      ("\" is not initialized. Please ensure it" ++ apos ++ "s initialized before use.").data,
      by simp [notInitializedMessage, String.data_append]⟩
  · simp [getDataSourceForValidation, hnorm, hreg, hinit, hres]

theorem getDataSource_error_paths_witness :
    getDataSourceForValidation (fun _ => none) (.name "nope")
        = .error (.typed (.dataSourceNotRegistered (notRegisteredMessage "nope")))
      ∧ StrContains (notRegisteredMessage "nope") "nope" :=
  (getDataSource_error_paths (fun _ => none) (.name "nope") "nope"
      ⟨0, false, Except.ok false⟩ (by decide)).1 rfl

/-! ## C5 — null/undefined short-circuit -/

/-- C5: on a `null`/`undefined` value the existence validator returns `false`
and the uniqueness validator returns `true`, for every registry (including an
empty one, so no data source is resolved) and with zero store queries. -/
theorem validate_nullish_short_circuit (env : ValidationEnv) (c : Constraints)
    (v : JSVal) (h : v.isNullish = true) :
    ExistsInValidator.validate env v c = (.ok false, 0)
    ∧ UniqueInValidator.validate env v c = (.ok true, 0) := by
  constructor
  · simp [ExistsInValidator.validate, h]
  · simp [UniqueInValidator.validate, h]

theorem validate_nullish_short_circuit_witness :
    ExistsInValidator.validate
        ⟨fun _ => none, ⟨.ok (), fun _ => .ok none, fun _ => .ok .noRow⟩⟩
        (.prim .pNull) ⟨.table "user", some "id", none, none⟩ = (.ok false, 0)
    ∧ UniqueInValidator.validate
        ⟨fun _ => none, ⟨.ok (), fun _ => .ok none, fun _ => .ok .noRow⟩⟩
        (.prim .pNull) ⟨.table "user", some "id", none, none⟩ = (.ok true, 0) :=
  validate_nullish_short_circuit _ _ _ rfl

/-! ## Scalar path -/

theorem valueExists_scalar (env : ValidationEnv) (c : Constraints) (p : JSPrim)
    (ds : HandleState) (raw : Option Unit)
    (heach : c.each ≠ some true)
    (hds : getDataSourceForValidation env.registry
      (normalizedConstraintDataSourceName c.dataSourceName) = .ok ds)
    (hrepo : env.store.getRepositoryOutcome = .ok ())
    (hq : env.store.scalarQuery p = .ok raw) :
    valueExists env (.prim p) c = (.ok (raw.isSome, raw.isSome), 1) := by
  simp [valueExists, valueExistsTry, applyEachSplit, runQuery, hds, hrepo, hq, heach]

/-! ## C1 — scalar existence verdict -/

/-- C1: in scalar (non-batch) mode, for a non-nullish value with valid
constraints and a successfully resolved data source, the existence validator
returns `true` exactly when the scalar query returns a row (one query issued),
and `false` when the raw result is `null`/`undefined`. -/
theorem existsIn_scalar_verdict (env : ValidationEnv) (c : Constraints)
    (p : JSPrim) (ds : HandleState) (raw : Option Unit)
    (hnn : (JSVal.prim p).isNullish = false)
    (hc : validateConstraints c "ExistsIn" = .ok ())
    (heach : c.each ≠ some true)
    (hds : getDataSourceForValidation env.registry
      (normalizedConstraintDataSourceName c.dataSourceName) = .ok ds)
    (hrepo : env.store.getRepositoryOutcome = .ok ())
    (hq : env.store.scalarQuery p = .ok raw) :
    ExistsInValidator.validate env (.prim p) c = (.ok raw.isSome, 1) := by
  have hve := valueExists_scalar env c p ds raw heach hds hrepo hq
  simp [ExistsInValidator.validate, hnn, hc, hve, heach]

/-! Concrete scaffolding shared by the witnesses. -/

/-- An already-initialized registered handle. -/
def readyHandle : HandleState := ⟨0, true, .ok true⟩

/-- A registry holding `readyHandle` under the default name. -/
def defaultRegistry : Registry :=
  fun n => if n = DEFAULT_DATA_SOURCE_NAME then some readyHandle else none

/-- A store whose scalar query finds a row exactly for the value `42`. -/
def scalarStore : StoreModel :=
  ⟨.ok (), fun p => .ok (if p = .pNum 42 then some () else none), fun _ => .ok .noRow⟩

/-- Constraints `[ 'user', 'id' ]` with no data source name and no `each`. -/
def plainCons : Constraints := ⟨.table "user", some "id", none, none⟩

theorem existsIn_scalar_verdict_witness :
    ExistsInValidator.validate ⟨defaultRegistry, scalarStore⟩ (.prim (.pNum 42)) plainCons
        = (.ok true, 1)
    ∧ ExistsInValidator.validate ⟨defaultRegistry, scalarStore⟩ (.prim (.pNum 7)) plainCons
        = (.ok false, 1) :=
  ⟨existsIn_scalar_verdict ⟨defaultRegistry, scalarStore⟩ plainCons (.pNum 42)
      readyHandle (some ()) rfl (by decide) (by decide) (by decide) rfl (by decide),
    existsIn_scalar_verdict ⟨defaultRegistry, scalarStore⟩ plainCons (.pNum 7)
      readyHandle none rfl (by decide) (by decide) (by decide) rfl (by decide)⟩

/-! ## Batch path -/

theorem valueExists_batch_empty (env : ValidationEnv) (c : Constraints)
    (s : String) (ds : HandleState)
    (heach : c.each = some true)
    (hds : getDataSourceForValidation env.registry
      (normalizedConstraintDataSourceName c.dataSourceName) = .ok ds)
    (hrepo : env.store.getRepositoryOutcome = .ok ())
    (hempty : batchCandidates s = []) :
    valueExists env (.prim (.pStr s)) c = (.ok (false, false), 0) := by
  simp [valueExists, valueExistsTry, applyEachSplit, runQuery, hds, hrepo, heach, hempty]

theorem valueExists_batch_eq (env : ValidationEnv) (c : Constraints)
    (s : String) (ds : HandleState) (raw : CountRaw)
    (heach : c.each = some true)
    (hds : getDataSourceForValidation env.registry
      (normalizedConstraintDataSourceName c.dataSourceName) = .ok ds)
    (hrepo : env.store.getRepositoryOutcome = .ok ())
    (hne : batchCandidates s ≠ [])
    (hcq : env.store.countQuery (jsSetDedup ((batchCandidates s).map JSPrim.pStr)) = .ok raw) :
    valueExists env (.prim (.pStr s)) c
      = (.ok (decide (jsFoundOfCountRaw raw > 0),
          decide (jsFoundOfCountRaw raw
            = ((jsSetDedup ((batchCandidates s).map JSPrim.pStr)).length : Int))), 1) := by
  simp [valueExists, valueExistsTry, applyEachSplit, runQuery, hds, hrepo, heach, hne, hcq]

/-! ## C4 — the batch pipeline of `valueExists` -/

/-- C4: in `each` mode the value is comma-split, trimmed, and cleaned of empty
pieces (`batchCandidates`); an empty candidate sequence yields
`(anyExists = false, allExists = false)` with zero store queries; otherwise
exactly one count query is issued over the deduplicated candidate set and the
verdict is `(found > 0, found = |deduplicated set|)`, where `found` is `0`
when the raw count result is absent or lacks the count field. -/
theorem valueExists_batch_pipeline (env : ValidationEnv) (c : Constraints)
    (s : String) (ds : HandleState)
    (heach : c.each = some true)
    (hds : getDataSourceForValidation env.registry
      (normalizedConstraintDataSourceName c.dataSourceName) = .ok ds)
    (hrepo : env.store.getRepositoryOutcome = .ok ()) :
    (batchCandidates s = [] →
      valueExists env (.prim (.pStr s)) c = (.ok (false, false), 0))
    ∧ (∀ raw, batchCandidates s ≠ [] →
        env.store.countQuery (jsSetDedup ((batchCandidates s).map JSPrim.pStr)) = .ok raw →
        valueExists env (.prim (.pStr s)) c
          = (.ok (decide (jsFoundOfCountRaw raw > 0),
              decide (jsFoundOfCountRaw raw
                = ((jsSetDedup ((batchCandidates s).map JSPrim.pStr)).length : Int))), 1))
    ∧ jsFoundOfCountRaw .noRow = 0
    ∧ jsFoundOfCountRaw .rowWithoutCnt = 0 :=
  ⟨fun hempty => valueExists_batch_empty env c s ds heach hds hrepo hempty,
    fun raw hne hcq => valueExists_batch_eq env c s ds raw heach hds hrepo hne hcq,
    rfl, rfl⟩

/-- A store that reports `cnt = 2` on every count query. -/
def countTwoStore : StoreModel :=
  ⟨.ok (), fun _ => .ok none, fun _ => .ok (.rowCnt 2)⟩

/-- Constraints `[ 'user', 'name' ]` in `each` mode. -/
def eachCons : Constraints := ⟨.table "user", some "name", none, some true⟩

theorem valueExists_batch_pipeline_witness :
    valueExists ⟨defaultRegistry, countTwoStore⟩ (.prim (.pStr ",")) eachCons
        = (.ok (false, false), 0)
    ∧ valueExists ⟨defaultRegistry, countTwoStore⟩ (.prim (.pStr "a,b,a")) eachCons
        = (.ok (true, true), 1) :=
  ⟨(valueExists_batch_pipeline ⟨defaultRegistry, countTwoStore⟩ eachCons ","
      readyHandle rfl (by decide) rfl).1 (by decide),
    (valueExists_batch_pipeline ⟨defaultRegistry, countTwoStore⟩ eachCons "a,b,a"
      readyHandle rfl (by decide) rfl).2.1 (.rowCnt 2) (by decide) (by decide)⟩

/-! ## C9 — the array branch is taken regardless of the `each` flag -/

/-- C9: when the value itself is an array and the `each` flag is absent or
`false`, `valueExists` still takes the batch counting path: an empty array
yields `(false, false)` with no store query, and otherwise one deduplicated
count query decides `(found > 0, found = |deduplicated set|)`. -/
theorem valueExists_array_branch (env : ValidationEnv) (c : Constraints)
    (elems : List JSPrim) (ds : HandleState)
    (heach : c.each ≠ some true)
    (hds : getDataSourceForValidation env.registry
      (normalizedConstraintDataSourceName c.dataSourceName) = .ok ds)
    (hrepo : env.store.getRepositoryOutcome = .ok ()) :
    (elems = [] → valueExists env (.arr elems) c = (.ok (false, false), 0))
    ∧ (∀ raw, elems ≠ [] → env.store.countQuery (jsSetDedup elems) = .ok raw →
        valueExists env (.arr elems) c
          = (.ok (decide (jsFoundOfCountRaw raw > 0),
              decide (jsFoundOfCountRaw raw = ((jsSetDedup elems).length : Int))), 1)) := by
  constructor
  · intro hempty
    simp [valueExists, valueExistsTry, applyEachSplit, runQuery, hds, hrepo, heach, hempty]
  · intro raw hne hcq
    simp [valueExists, valueExistsTry, applyEachSplit, runQuery, hds, hrepo, heach, hne, hcq]

theorem valueExists_array_branch_witness :
    valueExists ⟨defaultRegistry, countTwoStore⟩
        (.arr [.pStr "a", .pStr "b", .pStr "a"]) plainCons = (.ok (true, true), 1)
    ∧ valueExists ⟨defaultRegistry, countTwoStore⟩ (.arr []) plainCons
        = (.ok (false, false), 0) :=
  ⟨(valueExists_array_branch ⟨defaultRegistry, countTwoStore⟩ plainCons
        [.pStr "a", .pStr "b", .pStr "a"] readyHandle (by decide) (by decide) rfl).2
      (.rowCnt 2) (by decide) (by decide),
    (valueExists_array_branch ⟨defaultRegistry, countTwoStore⟩ plainCons [] readyHandle
        (by decide) (by decide) rfl).1 rfl⟩

/-! ## C10 — `each` mode with a non-string value -/

theorem failedToValidate_contains (ent col : String) :
    StrContains (failedToValidateMessage ent col) "Failed to validate" := by
  refine ⟨[], (" in ").data ++ ent.data ++ (".").data ++ col.data, ?_⟩
  have h : ("Failed to validate in ").data
      = ("Failed to validate").data ++ (" in ").data := by decide
  simp [failedToValidateMessage, String.data_append, h]

/-- C10: with `each = true` and a value that is not a string (an array, a
number, …), the comma-split throws a `TypeError`, which the catch clause wraps
into a `ValidationQueryError` whose cause is that original error — no element
is validated individually and no store query is issued. -/
theorem valueExists_each_non_string (env : ValidationEnv) (c : Constraints)
    (v : JSVal) (ds : HandleState)
    (heach : c.each = some true)
    (hv : ∀ s, v ≠ JSVal.prim (.pStr s))
    (hds : getDataSourceForValidation env.registry
      (normalizedConstraintDataSourceName c.dataSourceName) = .ok ds)
    (hrepo : env.store.getRepositoryOutcome = .ok ()) :
    valueExists env v c
      = (.error (.validationQuery
          (failedToValidateMessage (getEntityName c.entityOrTableName)
            (columnNameInterp c.columnName))
          ⟨splitTypeErrorMessage⟩), 0) := by
  have hsplit : applyEachSplit c.each v = .error (.jsError ⟨splitTypeErrorMessage⟩) := by
    unfold applyEachSplit
    rw [heach, if_pos rfl]
    cases v with
    | prim p => cases p <;> first | rfl | exact absurd rfl (hv _)
    | arr es => rfl
  have hpat : matchesConfigPattern splitTypeErrorMessage = false := by decide
  simp [valueExists, valueExistsTry, hds, hrepo, hsplit, classifyError,
    thrownMessage, originalErrorOf, hpat]

theorem valueExists_each_non_string_witness :
    valueExists ⟨defaultRegistry, countTwoStore⟩ (.arr [.pStr "a", .pStr "b"]) eachCons
      = (.error (.validationQuery (failedToValidateMessage "user" "name")
          ⟨splitTypeErrorMessage⟩), 0) :=
  valueExists_each_non_string ⟨defaultRegistry, countTwoStore⟩ eachCons
    (.arr [.pStr "a", .pStr "b"]) readyHandle rfl (fun s => by simp) (by decide) rfl

/-! ## C6 — error translation at the query-core boundary -/

/-- C6: every error escaping the `try` block of `valueExists` is routed
through `classifyError`: the four typed validator errors are rethrown
verbatim; any other throwable whose message matches the "no metadata" /
"doesn't exist" patterns (case-insensitively) is reclassified as a
`ValidationConfigurationError`; everything else is wrapped into a
`ValidationQueryError` whose message contains "Failed to validate" and whose
cause is the original error (a non-`Error` throwable first coerced to an
`Error` carrying its string form as message). -/
theorem valueExists_error_classification (env : ValidationEnv) (c : Constraints)
    (v : JSVal) (e : Thrown) (q : Nat)
    (h : valueExistsTry env v c = (.error e, q)) :
    valueExists env v c = (.error (classifyError c e), q)
    ∧ (∀ ve, e = .typed ve → classifyError c e = ve)
    ∧ ((∀ ve, e ≠ .typed ve) → matchesConfigPattern (thrownMessage e) = true →
        classifyError c e
          = .validationConfiguration (noMetadataMessage (getEntityName c.entityOrTableName)))
    ∧ ((∀ ve, e ≠ .typed ve) → matchesConfigPattern (thrownMessage e) = false →
        classifyError c e
            = .validationQuery
                (failedToValidateMessage (getEntityName c.entityOrTableName)
                  (columnNameInterp c.columnName))
                ⟨thrownMessage e⟩
          ∧ StrContains (failedToValidateMessage (getEntityName c.entityOrTableName)
              (columnNameInterp c.columnName)) "Failed to validate") := by
  refine ⟨?_, ?_, ?_, ?_⟩
  · simp [valueExists, h]
  · rintro ve rfl
    rfl
  · intro hnt hpat
    cases e with
    | typed ve => exact absurd rfl (hnt ve)
    | jsError e0 =>
      simp only [thrownMessage] at hpat
      simp [classifyError, thrownMessage, hpat]
    | nonError v0 =>
      simp only [thrownMessage] at hpat
      simp [classifyError, thrownMessage, hpat]
  · intro hnt hpat
    refine ⟨?_, failedToValidate_contains _ _⟩
    cases e with
    | typed ve => exact absurd rfl (hnt ve)
    | jsError e0 =>
      simp only [thrownMessage] at hpat
      simp [classifyError, thrownMessage, originalErrorOf, hpat]
    | nonError v0 =>
      simp only [thrownMessage] at hpat
      simp [classifyError, thrownMessage, originalErrorOf, hpat]

/-- A store whose repository access throws a plain `Error('boom')`. -/
def boomStore : StoreModel :=
  ⟨.error (.jsError ⟨"boom"⟩), fun _ => .ok none, fun _ => .ok .noRow⟩

theorem valueExists_error_classification_witness :
    valueExists ⟨defaultRegistry, boomStore⟩ (.prim (.pNum 1)) plainCons
        = (.error (classifyError plainCons (.jsError ⟨"boom"⟩)), 0)
    ∧ classifyError plainCons (.jsError ⟨"boom"⟩)
        = .validationQuery (failedToValidateMessage "user" "id") ⟨"boom"⟩ :=
  ⟨(valueExists_error_classification ⟨defaultRegistry, boomStore⟩ plainCons
      (.prim (.pNum 1)) (.jsError ⟨"boom"⟩) 0 (by decide)).1,
    ((valueExists_error_classification ⟨defaultRegistry, boomStore⟩ plainCons
      (.prim (.pNum 1)) (.jsError ⟨"boom"⟩) 0 (by decide)).2.2.2
      (fun ve hve => by cases hve) (by decide)).1⟩

/-! ## Batch verdicts against a consistent store

`COUNT(DISTINCT column) WHERE column IN (values)` over a column whose
membership is `present` returns the number of distinct requested values that
are present; over the already-deduplicated query set that is
`(vals.filter present).length`. -/

theorem valueExists_batch_consistent (env : ValidationEnv) (c : Constraints)
    (s : String) (present : JSPrim → Bool) (ds : HandleState)
    (heach : c.each = some true)
    (hds : getDataSourceForValidation env.registry
      (normalizedConstraintDataSourceName c.dataSourceName) = .ok ds)
    (hrepo : env.store.getRepositoryOutcome = .ok ())
    (hne : batchCandidates s ≠ [])
    (hstore : ∀ vals, env.store.countQuery vals
        = .ok (.rowCnt ((vals.filter present).length : Int))) :
    valueExists env (.prim (.pStr s)) c
      = (.ok (decide (∃ x ∈ (batchCandidates s).map JSPrim.pStr, present x = true),
          decide (∀ x ∈ (batchCandidates s).map JSPrim.pStr, present x = true)), 1) := by
  have h := valueExists_batch_eq env c s ds
      (.rowCnt (((jsSetDedup ((batchCandidates s).map JSPrim.pStr)).filter present).length : Int))
      heach hds hrepo hne (hstore _)
  rw [h]
  have hmem : ∀ a, a ∈ jsSetDedup ((batchCandidates s).map JSPrim.pStr)
      ↔ a ∈ (batchCandidates s).map JSPrim.pStr :=
    fun a => jsSetDedup_mem _ a
  have hany : (jsFoundOfCountRaw
        (.rowCnt (((jsSetDedup ((batchCandidates s).map JSPrim.pStr)).filter present).length : Int)) > 0)
      ↔ ∃ x ∈ (batchCandidates s).map JSPrim.pStr, present x = true := by
    simp only [jsFoundOfCountRaw]
    rw [gt_iff_lt, Int.natCast_pos, List.length_pos]
    constructor
    · intro hfne
      obtain ⟨x, hx⟩ := List.exists_mem_of_ne_nil _ hfne
      have hxm := List.mem_filter.mp hx
      exact ⟨x, (hmem x).mp hxm.1, hxm.2⟩
    · rintro ⟨x, hx, hp⟩
      exact List.ne_nil_of_mem (List.mem_filter.mpr ⟨(hmem x).mpr hx, hp⟩)
  have hall : (jsFoundOfCountRaw
        (.rowCnt (((jsSetDedup ((batchCandidates s).map JSPrim.pStr)).filter present).length : Int))
        = ((jsSetDedup ((batchCandidates s).map JSPrim.pStr)).length : Int))
      ↔ ∀ x ∈ (batchCandidates s).map JSPrim.pStr, present x = true := by
    simp only [jsFoundOfCountRaw]
    rw [Nat.cast_inj, List.filter_length_eq_length]
    constructor
    · intro hf x hx
      exact hf x ((hmem x).mpr hx)
    · intro hf x hx
      exact hf x ((hmem x).mp hx)
  rw [decide_eq_decide.mpr hany, decide_eq_decide.mpr hall]

/-! ## C3 — batch existence is `allExists` -/

/-- C3: in batch (`each = true`) mode, the existence validator's result is the
`allExists` flag of the `valueExists` verdict; against a store whose count
query consistently reports the number of distinct present values, the result
is `true` exactly when every candidate parsed from the batch exists in the
column. -/
theorem existsIn_batch_all_exists (env : ValidationEnv) (c : Constraints)
    (s : String) (present : JSPrim → Bool) (ds : HandleState)
    (hc : validateConstraints c "ExistsIn" = .ok ())
    (heach : c.each = some true)
    (hds : getDataSourceForValidation env.registry
      (normalizedConstraintDataSourceName c.dataSourceName) = .ok ds)
    (hrepo : env.store.getRepositoryOutcome = .ok ())
    (hne : batchCandidates s ≠ [])
    (hstore : ∀ vals, env.store.countQuery vals
        = .ok (.rowCnt ((vals.filter present).length : Int))) :
    (∀ a b q, valueExists env (.prim (.pStr s)) c = (.ok (a, b), q) →
      ExistsInValidator.validate env (.prim (.pStr s)) c = (.ok b, q))
    ∧ ExistsInValidator.validate env (.prim (.pStr s)) c
        = (.ok (decide (∀ x ∈ (batchCandidates s).map JSPrim.pStr, present x = true)), 1) := by
  have hcomb : ∀ a b q, valueExists env (.prim (.pStr s)) c = (.ok (a, b), q) →
      ExistsInValidator.validate env (.prim (.pStr s)) c = (.ok b, q) := by
    intro a b q hve
    simp [ExistsInValidator.validate, JSVal.isNullish, hc, hve, heach]
  exact ⟨hcomb, hcomb _ _ _
    (valueExists_batch_consistent env c s present ds heach hds hrepo hne hstore)⟩

/-- A store consistent with a column that contains exactly the value `"a"`. -/
def onlyAStore : StoreModel :=
  ⟨.ok (), fun _ => .ok none,
    fun vals => .ok (.rowCnt ((vals.filter (fun p => p = .pStr "a")).length : Int))⟩

theorem existsIn_batch_all_exists_witness :
    ExistsInValidator.validate ⟨defaultRegistry, onlyAStore⟩ (.prim (.pStr "a,b,a")) eachCons
        = (.ok false, 1)
    ∧ ExistsInValidator.validate ⟨defaultRegistry, onlyAStore⟩ (.prim (.pStr "a,a")) eachCons
        = (.ok true, 1) :=
  ⟨(existsIn_batch_all_exists ⟨defaultRegistry, onlyAStore⟩ eachCons "a,b,a"
      (fun p => p = .pStr "a") readyHandle (by decide) rfl (by decide) rfl (by decide)
      (fun _ => rfl)).2,
    (existsIn_batch_all_exists ⟨defaultRegistry, onlyAStore⟩ eachCons "a,a"
      (fun p => p = .pStr "a") readyHandle (by decide) rfl (by decide) rfl (by decide)
      (fun _ => rfl)).2⟩

/-! ## C2 — uniqueness is the negation of existence -/

/-- C2: for a non-nullish value with valid constraints, the uniqueness
validator returns the negation of the existence flag of the `valueExists`
verdict; in scalar mode that is `false` when the store returns a row and
`true` when it does not; in batch mode, against a consistent store, it is
`true` exactly when none of the batch's candidates exist in the column. -/
theorem uniqueIn_negation (env : ValidationEnv) (c : Constraints)
    (v : JSVal) (ds : HandleState)
    (hnn : v.isNullish = false)
    (hc : validateConstraints c "UniqueIn" = .ok ()) :
    (∀ a b q, valueExists env v c = (.ok (a, b), q) →
      UniqueInValidator.validate env v c = (.ok (!a), q))
    ∧ (∀ p raw, v = .prim p → c.each ≠ some true →
        getDataSourceForValidation env.registry
          (normalizedConstraintDataSourceName c.dataSourceName) = .ok ds →
        env.store.getRepositoryOutcome = .ok () →
        env.store.scalarQuery p = .ok raw →
        UniqueInValidator.validate env v c = (.ok (!raw.isSome), 1))
    ∧ (∀ s present, v = .prim (.pStr s) → c.each = some true →
        getDataSourceForValidation env.registry
          (normalizedConstraintDataSourceName c.dataSourceName) = .ok ds →
        env.store.getRepositoryOutcome = .ok () →
        batchCandidates s ≠ [] →
        (∀ vals, env.store.countQuery vals
            = .ok (.rowCnt ((vals.filter present).length : Int))) →
        UniqueInValidator.validate env v c
          = (.ok (decide (∀ x ∈ (batchCandidates s).map JSPrim.pStr, present x = false)), 1)) := by
  have hcomb : ∀ a b q, valueExists env v c = (.ok (a, b), q) →
      UniqueInValidator.validate env v c = (.ok (!a), q) := by
    intro a b q hve
    simp [UniqueInValidator.validate, hnn, hc, hve]
  refine ⟨hcomb, ?_, ?_⟩
  · rintro p raw rfl heach hds hrepo hq
    exact hcomb _ _ _ (valueExists_scalar env c p ds raw heach hds hrepo hq)
  · rintro s present rfl heach hds hrepo hne hstore
    have hv := hcomb _ _ _
      (valueExists_batch_consistent env c s present ds heach hds hrepo hne hstore)
    rw [hv]
    have hiff : (¬ ∃ x ∈ (batchCandidates s).map JSPrim.pStr, present x = true)
        ↔ ∀ x ∈ (batchCandidates s).map JSPrim.pStr, present x = false := by
      rw [not_exists]
      simp [Bool.not_eq_true]
    rw [← decide_not, decide_eq_decide.mpr hiff]

/-- A store for the uniqueness witness: the row `taken@example.com` exists,
and batch counts are consistent with a column containing exactly `"a"`. -/
def takenStore : StoreModel :=
  ⟨.ok (), fun p => .ok (if p = .pStr "taken@example.com" then some () else none),
    fun vals => .ok (.rowCnt ((vals.filter (fun p => p = .pStr "a")).length : Int))⟩

theorem uniqueIn_negation_witness :
    UniqueInValidator.validate ⟨defaultRegistry, takenStore⟩
        (.prim (.pStr "taken@example.com")) plainCons = (.ok false, 1)
    ∧ UniqueInValidator.validate ⟨defaultRegistry, takenStore⟩
        (.prim (.pStr "free@example.com")) plainCons = (.ok true, 1)
    ∧ UniqueInValidator.validate ⟨defaultRegistry, takenStore⟩
        (.prim (.pStr "a,b")) eachCons = (.ok false, 1)
    ∧ UniqueInValidator.validate ⟨defaultRegistry, takenStore⟩
        (.prim (.pStr "b,c")) eachCons = (.ok true, 1) :=
  ⟨(uniqueIn_negation ⟨defaultRegistry, takenStore⟩ plainCons
        (.prim (.pStr "taken@example.com")) readyHandle rfl (by decide)).2.1
      (.pStr "taken@example.com") (some ()) rfl (by decide) (by decide) rfl (by decide),
    (uniqueIn_negation ⟨defaultRegistry, takenStore⟩ plainCons
        (.prim (.pStr "free@example.com")) readyHandle rfl (by decide)).2.1
      (.pStr "free@example.com") none rfl (by decide) (by decide) rfl (by decide),
    (uniqueIn_negation ⟨defaultRegistry, takenStore⟩ eachCons
        (.prim (.pStr "a,b")) readyHandle rfl (by decide)).2.2
      "a,b" (fun p => p = .pStr "a") rfl rfl (by decide) rfl (by decide) (fun _ => rfl),
    (uniqueIn_negation ⟨defaultRegistry, takenStore⟩ eachCons
        (.prim (.pStr "b,c")) readyHandle rfl (by decide)).2.2
      "b,c" (fun p => p = .pStr "a") rfl rfl (by decide) rfl (by decide) (fun _ => rfl)⟩

end NestJsTypeormValidator
